import Mathlib

set_option maxHeartbeats 1000000

/-! Verification of the tro command-line Trello client (src/find.rs and
src/main.rs): the domain data model, the two pattern matchers, the two
hierarchy resolvers, the card text codec, and the edit/close command logic,
as shallow Lean embeddings, with the claimed properties settled below. -/

/-- A card of the trello data model: id, name, free-text description, closed
flag and labels. -/
structure Card where
  id : String
  name : String
  desc : String
  closed : Bool
  labels : List String
deriving DecidableEq

/-- A list of cards. The source type is named `List`; renamed `TrelloList`
here because `List` is taken in Lean. `cards` is optional because the nested
collection is populated only by an explicit fetch. -/
structure TrelloList where
  id : String
  name : String
  closed : Bool
  cards : Option (List Card)
deriving DecidableEq

/-- A board, with its optionally-populated lists. -/
structure Board where
  id : String
  name : String
  closed : Bool
  lists : Option (List TrelloList)
deriving DecidableEq

/-- The TrelloObject trait: every entity kind has a name and a human-readable
type label. -/
class TrelloObject (T : Type) where
  get_name : T → String
  get_type : String

instance : TrelloObject Board := ⟨Board.name, "Board"⟩

instance : TrelloObject TrelloList := ⟨TrelloList.name, "List"⟩

instance : TrelloObject Card := ⟨Card.name, "Card"⟩

/-- The external regex collaborator, injected as a "build" function: it takes
the pattern and the case-insensitivity flag and returns either a compile
error (modelled by its message) or a compiled match predicate over candidate
names (unanchored substring search, as regex is_match does). -/
def RegexBuild : Type := String → Bool → Except String (String → Bool)

/-- ASCII lower-case folding, used by the concrete regex model. -/
def asciiLower (c : Char) : Char :=
  if 'A' ≤ c ∧ c ≤ 'Z' then Char.ofNat (c.toNat + 32) else c

/-- Whether `p` is a prefix of the second list (boolean, on character lists). -/
def startsWithL : List Char → List Char → Bool
  | [], _ => true
  | _ :: _, [] => false
  | p :: ps, c :: cs => p = c && startsWithL ps cs

/-- Whether `p` occurs contiguously inside the second list. -/
def hasSubstrL (p : List Char) : List Char → Bool
  | [] => startsWithL p []
  | c :: cs => startsWithL p (c :: cs) || hasSubstrL p cs

/-- The match predicate a literal pattern compiles to: unanchored substring
search, folding ASCII case when `ignore_case` is set. -/
def litMatch (pattern : String) (ignore_case : Bool) (s : String) : Bool :=
  if ignore_case then
    hasSubstrL (pattern.data.map asciiLower) (s.data.map asciiLower)
  else hasSubstrL pattern.data s.data

/-- Modelled from the spec: the external regex engine (the regex crate), cut
down to what the claims exercise. A pattern containing "(" models a pattern
that does not compile as a regular expression (an unclosed group); any other
pattern is treated as literal text and compiles to an unanchored substring
search per `litMatch`. -/
def litBuild : RegexBuild := fun pattern ignore_case =>
  if pattern.data.contains '(' then .error "regex parse error: unclosed group"
  else .ok (litMatch pattern ignore_case)

/-- Wrap a string in single quotes, as the format strings of the source do. -/
def quoted (s : String) : String := "'" ++ s ++ "'"

/-- The find.rs error type. `Regex` holds the regex compile error; the other
variants hold their formatted message. -/
inductive FindError where
  | Regex (err : String)
  | Multiple (msg : String)
  | NotFound (msg : String)
  | WildCard (msg : String)
deriving DecidableEq

/-- The find.rs message for an ambiguous match, enumerating the matched
names. -/
def multipleMessage (typeLabel pattern : String) (names : List String) : String :=
  "More than one " ++ typeLabel ++ " found. Specify a more precise filter than "
    ++ quoted pattern ++ " (Found "
    ++ String.intercalate ", " (names.map quoted) ++ ")"

/-- The find.rs message for no match. -/
def notFoundMessage (typeLabel pattern : String) : String :=
  typeLabel ++ " not found. Specify a more precise filter than " ++ quoted pattern

namespace Find

/-- src/find.rs get_object_by_name: compile the pattern with the requested
case sensitivity, keep the objects whose name matches, and return the unique
match, a NotFound error, or a Multiple error enumerating every matched name
in input order. -/
def get_object_by_name {T : Type} [TrelloObject T] (build : RegexBuild)
    (objects : List T) (name : String) (ignore_case : Bool) :
    Except FindError T :=
  match build name ignore_case with
  | .error err => .error (.Regex err)
  | .ok re =>
    match objects.filter fun o => re (TrelloObject.get_name o) with
    | [] => .error (.NotFound (notFoundMessage (@TrelloObject.get_type T _) name))
    | [o] => .ok o
    | o1 :: o2 :: rest =>
      .error (.Multiple (multipleMessage (@TrelloObject.get_type T _) name
        ((o1 :: o2 :: rest).map TrelloObject.get_name)))

end Find

/-- The main.rs error model: `panicked` models a process abort (the expect
call on a regex that fails to compile), `simple` models a SimpleError built
by the bail macro. -/
inductive MainError where
  | panicked (msg : String)
  | simple (msg : String)
deriving DecidableEq

/-- The main.rs ambiguous-match message: it does not name the matches. -/
def mainMultipleMessage (pattern : String) : String :=
  "More than one object found. Specify a more precise filter than " ++ quoted pattern

/-- The main.rs no-match message. -/
def mainNotFoundMessage (pattern : String) : String :=
  "Object not found. Specify a more precise filter than " ++ quoted pattern

namespace Main

/-- src/main.rs get_object_by_name: same filtering as the find.rs version,
but the process aborts (expect "Invalid Regex") when the pattern does not
compile, and the error messages do not enumerate the matched objects. -/
def get_object_by_name {T : Type} [TrelloObject T] (build : RegexBuild)
    (objects : List T) (name : String) (ignore_case : Bool) :
    Except MainError T :=
  match build name ignore_case with
  | .error _ => .error (.panicked "Invalid Regex")
  | .ok re =>
    match objects.filter fun o => re (TrelloObject.get_name o) with
    | [] => .error (.simple (mainNotFoundMessage name))
    | [o] => .ok o
    | _ => .error (.simple (mainMultipleMessage name))

end Main

/-- Modelled from the spec: the remote-service data behind the Client
collaborator — the boards a plain fetch returns, and the lists and cards a
nested fetch returns for a given parent id. -/
structure ClientData where
  boards : List Board
  listsOf : String → List TrelloList
  cardsOf : String → List Card

namespace Board

/-- Modelled from the spec: Board::get_all fetches every board, nested
collections not populated. -/
def get_all (client : ClientData) : List Board := client.boards

/-- Modelled from the spec: Board::retrieve_nested populates the board's
lists, each with its cards, in one batched retrieval. -/
def retrieve_nested (client : ClientData) (b : Board) : Board :=
  { b with lists := some ((client.listsOf b.id).map fun l =>
      { l with cards := some (client.cardsOf l.id) }) }

/-- Modelled from the spec: Board::get_all_lists fetches a board's lists,
with their cards when the `cards` flag is set. -/
def get_all_lists (client : ClientData) (board_id : String) (cards : Bool) :
    List TrelloList :=
  if cards then
    (client.listsOf board_id).map fun l => { l with cards := some (client.cardsOf l.id) }
  else client.listsOf board_id

end Board

namespace TrelloList

/-- Modelled from the spec: List::get_all_cards fetches a list's cards. -/
def get_all_cards (client : ClientData) (list_id : String) : List Card :=
  client.cardsOf list_id

end TrelloList

/-- The find.rs TrelloParams value. -/
structure TrelloParams where
  board_name : Option String
  list_name : Option String
  card_name : Option String
  ignore_case : Bool

/-- Model of the parsed command line as the core reads it: the three
positional name arguments and the presence of each case flag. -/
structure ArgMatches where
  board_name : Option String
  list_name : Option String
  card_name : Option String
  case_sensitive : Bool
  ignore_case : Bool

namespace Find

/-- src/find.rs get_trello_params: case-insensitive unless the
case-sensitive flag is present. -/
def get_trello_params (m : ArgMatches) : TrelloParams :=
  { board_name := m.board_name, list_name := m.list_name,
    card_name := m.card_name, ignore_case := !m.case_sensitive }

end Find

/-- The resolved context (TrelloResult in both source files). -/
structure TrelloResult where
  board : Option Board
  list : Option TrelloList
  card : Option Card
deriving DecidableEq

/-- The errors escaping find.rs get_trello_object (a boxed error in the
source): a FindError, or a panic from unwrap on an unpopulated collection. -/
inductive TroError where
  | find (e : FindError)
  | panicked (msg : String)
deriving DecidableEq

/-- The find.rs wildcard error message. -/
def wildcardMessage : String := "Card name must be specified with list '-' wildcard"

/-- unwrap over each list's cards in order (the `none` result models the
panic at an unpopulated one), flattened into one candidate set. -/
def unwrapCards : List TrelloList → Option (List Card)
  | [] => some []
  | l :: rest =>
    match l.cards, unwrapCards rest with
    | some cs, some others => some (cs ++ others)
    | _, _ => none

namespace Find

/-- src/find.rs get_trello_object: resolve the board, retrieve everything
nested at once, then handle the "-" wildcard, or a list and optionally a
card. -/
def get_trello_object (client : ClientData) (build : RegexBuild)
    (params : TrelloParams) : Except TroError TrelloResult :=
  match params.board_name with
  | none => .ok ⟨none, none, none⟩
  | some board_name =>
    match get_object_by_name build (Board.get_all client) board_name
        params.ignore_case with
    | .error e => .error (.find e)
    | .ok board0 =>
      let board := Board.retrieve_nested client board0
      match params.list_name with
      | some list_name =>
        if list_name = "-" then
          match params.card_name with
          | some card_name =>
            let board_out := board
            match board.lists with
            | none => .error (.panicked "called unwrap on a None value")
            | some lists =>
              match unwrapCards lists with
              | none => .error (.panicked "called unwrap on a None value")
              | some cards =>
                match get_object_by_name build cards card_name params.ignore_case with
                | .error e => .error (.find e)
                | .ok card => .ok ⟨some board_out, none, some card⟩
          | none => .error (.find (.WildCard wildcardMessage))
        else
          match board.lists with
          | none => .error (.panicked "called unwrap on a None value")
          | some lists =>
            match get_object_by_name build lists list_name params.ignore_case with
            | .error e => .error (.find e)
            | .ok list =>
              match params.card_name with
              | some card_name =>
                match list.cards with
                | none => .error (.panicked "called unwrap on a None value")
                | some cards =>
                  match get_object_by_name build cards card_name params.ignore_case with
                  | .error e => .error (.find e)
                  | .ok card => .ok ⟨some board, some list, some card⟩
              | none => .ok ⟨some board, some list, none⟩
      | none => .ok ⟨some board, none, none⟩

end Find

namespace Main

/-- src/main.rs get_trello_object: one fetch per hierarchy level actually
requested; the ignore-case flag is read directly from the matches, and there
is no wildcard handling. -/
def get_trello_object (client : ClientData) (build : RegexBuild)
    (m : ArgMatches) : Except MainError TrelloResult :=
  match m.board_name with
  | none => .ok ⟨none, none, none⟩
  | some board_name =>
    let ignore_case := m.ignore_case
    match get_object_by_name build (Board.get_all client) board_name ignore_case with
    | .error e => .error e
    | .ok board =>
      match m.list_name with
      | some list_name =>
        match get_object_by_name build (Board.get_all_lists client board.id true)
            list_name ignore_case with
        | .error e => .error e
        | .ok list =>
          match m.card_name with
          | some card_name =>
            match get_object_by_name build (TrelloList.get_all_cards client list.id)
                card_name ignore_case with
            | .error e => .error e
            | .ok card => .ok ⟨some board, some list, some card⟩
          | none => .ok ⟨some board, some list, none⟩
      | none => .ok ⟨some board, none, none⟩

end Main

/-- Split a character list into its lines at newline characters. -/
def splitLines : List Char → List (List Char)
  | [] => [[]]
  | c :: rest =>
    if c = '\n' then [] :: splitLines rest
    else
      match splitLines rest with
      | [] => [[c]]
      | l :: ls => (c :: l) :: ls

/-- Join lines back with newline separators. -/
def joinLines : List (List Char) → List Char
  | [] => []
  | [l] => l
  | l :: l2 :: ls => l ++ '\n' :: joinLines (l2 :: ls)

/-- Drop a leading run of whitespace. -/
def trimStartL (l : List Char) : List Char := l.dropWhile Char.isWhitespace

/-- Drop a trailing run of whitespace (the model of Rust str::trim_end). -/
def trimEndL (l : List Char) : List Char :=
  (l.reverse.dropWhile Char.isWhitespace).reverse

/-- Trim both ends. -/
def trimL (l : List Char) : List Char := trimStartL (trimEndL l)

/-- The lines after the first blank line, if there is one. -/
def afterBlank : List (List Char) → Option (List (List Char))
  | [] => none
  | [] :: rest => some rest
  | _ :: rest => afterBlank rest

/-- The card-document parse failure. -/
inductive ParseError where
  | MalformedDocument
deriving DecidableEq

namespace Card

/-- Modelled from the spec: Card::render (trello crate, not under src/) —
the name line, a blank-line separator, then the description verbatim. -/
def render (c : Card) : String := c.name ++ "\n\n" ++ c.desc

/-- Modelled from the spec: Card::parse (trello crate, not under src/) —
the trimmed first line is the name, the content after the first blank line
is the description (empty when there is no blank line); empty input is a
MalformedDocument error. The identity fields are left blank for the caller
to splice back on. -/
def parse (text : String) : Except ParseError Card :=
  if text.data = [] then .error .MalformedDocument
  else
    match splitLines text.data with
    | [] => .error .MalformedDocument
    | nameLine :: rest =>
      let desc := match afterBlank rest with
        | some ds => String.mk (joinLines ds)
        | none => ""
      .ok { id := "", name := String.mk (trimL nameLine), desc := desc,
            closed := false, labels := [] }

end Card

/-- src/main.rs edit_card: render the card, append the newline that writeln
adds, hand the text to the external editor (injected as a function), trim
the trailing whitespace of what comes back, parse it, and splice id and
labels from the original card onto the result. -/
def edit_card (editor : String → String) (card : Card) : Except ParseError Card :=
  match Card.parse (String.mk (trimEndL (editor (card.render ++ "\n")).data)) with
  | .error e => .error e
  | .ok new_card => .ok { new_card with id := card.id, labels := card.labels }

/-- src/main.rs show_subcommand, existing-card branch: edit the card and
return the update sent to the service — `some` the new card when it differs
from the original, `none` (no update call) when it does not. -/
def show_card_edit (editor : String → String) (card : Card) :
    Except ParseError (Option Card) :=
  match edit_card editor card with
  | .error e => .error e
  | .ok new_card => .ok (if new_card = card then none else some new_card)

/-- The one mutation close_subcommand sends to the service. -/
inductive CloseAction where
  | board (b : Board)
  | list (l : TrelloList)
  | card (c : Card)
deriving DecidableEq

/-- src/main.rs close_subcommand, mutation phase: depth precedence over the
resolved context — close the card when present, else the list, else the
board; `none` when the context is all-absent. -/
def close_mutation (result : TrelloResult) : Option CloseAction :=
  match result.card with
  | some c => some (.card { c with closed := true })
  | none =>
    match result.list with
    | some l => some (.list { l with closed := true })
    | none =>
      match result.board with
      | some b => some (.board { b with closed := true })
      | none => none

/-- The observable shape of a resolved context: presence and identity
(id and name) at each of the three levels. -/
def shape (r : TrelloResult) :
    Option (String × String) × Option (String × String) × Option (String × String) :=
  (r.board.map fun b => (b.id, b.name),
   r.list.map fun l => (l.id, l.name),
   r.card.map fun c => (c.id, c.name))

/-- The cards of all the board's lists, flattened into one candidate set in
input order, ignoring list boundaries. -/
def flatCards (client : ClientData) (b : Board) : List Card :=
  ((client.listsOf b.id).map fun l => client.cardsOf l.id).flatten

/-- Whether an Except value is a success. -/
def isOkE {ε α : Type} : Except ε α → Bool
  | .ok _ => true
  | .error _ => false

/-- Fixture: a card named Alpha. -/
def cardAlpha : Card := ⟨"c1", "Alpha", "", false, []⟩

/-- Fixture: a card named Alps. -/
def cardAlps : Card := ⟨"c2", "Alps", "", false, []⟩

/-- Fixture: a card named Beta. -/
def cardBeta : Card := ⟨"c3", "Beta", "", false, []⟩

/-- Fixture: a card named Foo (capital F). -/
def cardFoo : Card := ⟨"c9", "Foo", "", false, []⟩

/-- Fixture: a board named Foo (capital F). -/
def boardFoo : Board := ⟨"b1", "Foo", false, none⟩

/-- Fixture: a client serving only the board Foo, with no lists. -/
def clientFoo : ClientData := ⟨[boardFoo], fun _ => [], fun _ => []⟩

/-- Fixture: a card named groceries. -/
def cardGroceries : Card := ⟨"c10", "groceries", "", false, []⟩

/-- Fixture: a card named laundry. -/
def cardLaundry : Card := ⟨"c11", "laundry", "", false, []⟩

/-- Fixture: a list named Todo. -/
def listTodo : TrelloList := ⟨"l1", "Todo", false, none⟩

/-- Fixture: a list named Done. -/
def listDone : TrelloList := ⟨"l2", "Done", false, none⟩

/-- Fixture: a board named Work. -/
def boardWork : Board := ⟨"b2", "Work", false, none⟩

/-- Fixture: a client with the board Work holding the lists Todo and Done,
one card in each. -/
def clientWork : ClientData :=
  ⟨[boardWork],
   fun bid => if bid = "b2" then [listTodo, listDone] else [],
   fun lid =>
     if lid = "l1" then [cardGroceries]
     else if lid = "l2" then [cardLaundry] else []⟩

/-- Fixture: the card of the concrete round-trip example. -/
def buyMilk : Card := ⟨"id1", "Buy milk", "2% please", false, []⟩

/-- Fixture: a card whose description ends in a newline. -/
def trailCard : Card := ⟨"c20", "note", "body\n", false, []⟩

/-- Agreement of the two matchers: on the same inputs the main.rs matcher succeeds with the same object as the find.rs matcher, and fails whenever it fails. -/
theorem gobn_agree {T : Type} [TrelloObject T] (build : RegexBuild)
    (objs : List T) (n : String) (ic : Bool) :
    (∀ a, Find.get_object_by_name build objs n ic = .ok a →
       Main.get_object_by_name build objs n ic = .ok a) ∧
    (∀ e, Find.get_object_by_name build objs n ic = .error e →
       ∃ e2, Main.get_object_by_name build objs n ic = .error e2) := by
  unfold Find.get_object_by_name Main.get_object_by_name
  cases build n ic with
  | error e => simp
  | ok re =>
    cases hf : objs.filter (fun o => re (TrelloObject.get_name o)) with
    | nil => simp [hf]
    | cons a t => cases t <;> simp [hf]

/-- A successful match is one of the input objects. -/
theorem gobn_ok_mem {T : Type} [TrelloObject T] (build : RegexBuild)
    (objs : List T) (n : String) (ic : Bool) (a : T)
    (h : Find.get_object_by_name build objs n ic = .ok a) : a ∈ objs := by
  cases hb : build n ic with
  | error e => simp [Find.get_object_by_name, hb] at h
  | ok re =>
    simp only [Find.get_object_by_name, hb] at h
    cases hf : objs.filter (fun o => re (TrelloObject.get_name o)) with
    | nil => simp [hf] at h
    | cons x t =>
      cases t with
      | nil =>
        simp [hf] at h
        subst h
        exact List.mem_of_mem_filter (hf ▸ List.mem_singleton_self x)
      | cons y t2 => simp [hf] at h

/-- Unwrapping the cards of lists whose cards were just populated succeeds with the flattened candidate set. -/
theorem unwrapCards_map (g : TrelloList → List Card) (ls : List TrelloList) :
    unwrapCards (ls.map fun l => { l with cards := some (g l) }) =
      some ((ls.map g).flatten) := by
  induction ls with
  | nil => rfl
  | cons l rest ih => simp [unwrapCards, ih]

/-- Rebuilding a string from its character data is the identity. -/
theorem strMk_data (s : String) : String.mk s.data = s := rfl

/-- Splitting into lines never yields an empty line list. -/
theorem splitLines_ne_nil (l : List Char) : splitLines l ≠ [] := by
  cases l with
  | nil => simp [splitLines]
  | cons c rest =>
    by_cases hc : c = '\n'
    · simp [splitLines, hc]
    · cases h : splitLines rest <;> simp [splitLines, hc, h]

/-- A newline-free list is a single line. -/
theorem splitLines_no_newline (a : List Char) (h : '\n' ∉ a) : splitLines a = [a] := by
  induction a with
  | nil => rfl
  | cons c rest ih =>
    have hc : c ≠ '\n' := fun e => h (e ▸ List.mem_cons_self c rest)
    have ihh := ih fun m => h (List.mem_cons_of_mem c m)
    simp [splitLines, hc, ihh]

/-- Splitting at the first newline after a newline-free prefix peels off that prefix as the first line. -/
theorem splitLines_append (a b : List Char) (h : '\n' ∉ a) :
    splitLines (a ++ '\n' :: b) = a :: splitLines b := by
  induction a with
  | nil => simp [splitLines]
  | cons c rest ih =>
    have hc : c ≠ '\n' := fun e => h (e ▸ List.mem_cons_self c rest)
    have ihh := ih fun m => h (List.mem_cons_of_mem c m)
    simp [splitLines, hc, ihh]

/-- Joining a nonempty tail reinserts a newline after the head line. -/
theorem joinLines_cons_of_ne_nil (l : List Char) (ls : List (List Char)) (h : ls ≠ []) :
    joinLines (l :: ls) = l ++ '\n' :: joinLines ls := by
  cases ls with
  | nil => exact absurd rfl h
  | cons l2 t => rfl

/-- Joining the split lines gives back the original characters. -/
theorem joinLines_splitLines (l : List Char) : joinLines (splitLines l) = l := by
  induction l with
  | nil => rfl
  | cons c rest ih =>
    by_cases hc : c = '\n'
    · subst hc
      rw [show splitLines ('\n' :: rest) = [] :: splitLines rest from by simp [splitLines]]
      rw [joinLines_cons_of_ne_nil _ _ (splitLines_ne_nil rest), ih]
      rfl
    · cases h : splitLines rest with
      | nil => exact absurd h (splitLines_ne_nil rest)
      | cons l0 ls =>
        rw [show splitLines (c :: rest) = (c :: l0) :: ls from by simp [splitLines, hc, h]]
        cases ls with
        | nil =>
          have hl0 : l0 = rest := by rw [h] at ih; simpa [joinLines] using ih
          simp [joinLines, hl0]
        | cons l1 ls2 =>
          have ihh : l0 ++ '\n' :: joinLines (l1 :: ls2) = rest := by
            rw [h] at ih; simpa [joinLines] using ih
          simp [joinLines, ← ihh]

/-- Dropping whitespace skips over an all-whitespace prefix. -/
theorem dropWhile_ws_append (w l : List Char) (h : ∀ c ∈ w, Char.isWhitespace c) :
    (w ++ l).dropWhile Char.isWhitespace = l.dropWhile Char.isWhitespace := by
  induction w with
  | nil => rfl
  | cons c t ih =>
    simp only [List.cons_append, List.dropWhile_cons, h c (by simp),
      ih fun x hx => h x (by simp [hx])]
    simp [h c (by simp)]

/-- Trailing-whitespace trimming removes an appended all-whitespace suffix. -/
theorem trimEndL_append_ws (a w : List Char) (h : ∀ c ∈ w, Char.isWhitespace c) :
    trimEndL (a ++ w) = trimEndL a := by
  unfold trimEndL
  rw [List.reverse_append, dropWhile_ws_append _ _ fun c hc => h c (List.mem_reverse.mp hc)]

/-- Appending a nonempty suffix with no trailing whitespace leaves nothing to trim. -/
theorem trimEndL_clean_append (a b : List Char) (hb : trimEndL b = b) (hne : b ≠ []) :
    trimEndL (a ++ b) = a ++ b := by
  unfold trimEndL at hb ⊢
  rw [List.reverse_append]
  cases hbr : b.reverse with
  | nil => exact absurd (by simpa using congrArg List.reverse hbr) hne
  | cons c t =>
    have hc : ¬ Char.isWhitespace c := by
      intro hcw
      rw [hbr, List.dropWhile_cons, if_pos hcw] at hb
      have h1 := congrArg List.length hb
      have h2 : (List.dropWhile Char.isWhitespace t).length ≤ t.length :=
        (List.dropWhile_suffix _).length_le
      have h3 : b.reverse.length = t.length + 1 := by rw [hbr]; rfl
      simp at h1 h3
      omega
    rw [hbr] at hb
    rw [List.cons_append, List.dropWhile_cons, if_neg hc]
    have : (c :: t).reverse = b := by rw [← hbr, List.reverse_reverse]
    calc (c :: (t ++ a.reverse)).reverse
        = a ++ (c :: t).reverse := by simp
      _ = a ++ b := by rw [this]

/-- The end-trimmed list is a prefix of the original. -/
theorem trimEndL_prefix (l : List Char) : trimEndL l <+: l := by
  unfold trimEndL
  have h := List.dropWhile_suffix (l := l.reverse) Char.isWhitespace
  have h2 := List.reverse_prefix.mpr h
  rwa [List.reverse_reverse] at h2

/-- A fully-trimmed-stable list is in particular end-trim stable. -/
theorem trimL_self_trimEnd (l : List Char) (h : trimL l = l) : trimEndL l = l := by
  have hpre := trimEndL_prefix l
  have hlen2 : l.length ≤ (trimEndL l).length := by
    calc l.length = (trimL l).length := by rw [h]
      _ ≤ (trimEndL l).length := by
          unfold trimL trimStartL
          exact (List.dropWhile_suffix _).length_le
  exact hpre.eq_of_length (le_antisymm hpre.length_le hlen2)

/-- Parsing a document of a newline-free name line, a blank separator and a body yields the trimmed name and the body verbatim. -/
theorem parse_name_sep_desc (nm ds : List Char) (h1 : '\n' ∉ nm) :
    Card.parse (String.mk (nm ++ '\n' :: '\n' :: ds)) =
      .ok ⟨"", String.mk (trimL nm), String.mk ds, false, []⟩ := by
  unfold Card.parse
  rw [show (String.mk (nm ++ '\n' :: '\n' :: ds)).data = nm ++ '\n' :: '\n' :: ds from rfl]
  rw [if_neg (by simp)]
  rw [splitLines_append _ _ h1]
  rw [show splitLines ('\n' :: ds) = [] :: splitLines ds from by simp [splitLines]]
  simp [afterBlank, joinLines_splitLines]

/-- Parsing a nonempty newline-free document yields the trimmed line and an empty description. -/
theorem parse_single_line (nm : List Char) (h1 : '\n' ∉ nm) (hne : nm ≠ []) :
    Card.parse (String.mk nm) = .ok ⟨"", String.mk (trimL nm), "", false, []⟩ := by
  unfold Card.parse
  rw [show (String.mk nm).data = nm from rfl]
  rw [if_neg hne]
  rw [splitLines_no_newline _ h1]
  simp [afterBlank]

/-- C1: for every object sequence and every pattern that compiles, both pattern matchers (find.rs and main.rs get_object_by_name) return Ok with the unique object whose name matches when exactly one matches, fail with a not-found error when none matches, and fail with a multiple/ambiguous error when two or more match, never silently picking one. -/
theorem get_object_by_name_trichotomy {T : Type} [TrelloObject T]
    (build : RegexBuild) (objects : List T) (pattern : String)
    (ignore_case : Bool) (re : String → Bool)
    (hre : build pattern ignore_case = .ok re) :
    (∀ o, objects.filter (fun x => re (TrelloObject.get_name x)) = [o] →
      Find.get_object_by_name build objects pattern ignore_case = .ok o ∧
      Main.get_object_by_name build objects pattern ignore_case = .ok o) ∧
    (objects.filter (fun x => re (TrelloObject.get_name x)) = [] →
      Find.get_object_by_name build objects pattern ignore_case =
        .error (.NotFound (notFoundMessage (@TrelloObject.get_type T _) pattern)) ∧
      Main.get_object_by_name build objects pattern ignore_case =
        .error (.simple (mainNotFoundMessage pattern))) ∧
    (∀ o1 o2 rest,
      objects.filter (fun x => re (TrelloObject.get_name x)) = o1 :: o2 :: rest →
      Find.get_object_by_name build objects pattern ignore_case =
        .error (.Multiple (multipleMessage (@TrelloObject.get_type T _) pattern
          ((o1 :: o2 :: rest).map TrelloObject.get_name))) ∧
      ∃ m, Main.get_object_by_name build objects pattern ignore_case =
        .error (.simple m)) := by
  refine ⟨fun o h => ?_, fun h => ?_, fun o1 o2 rest h => ?_⟩ <;>
    simp [Find.get_object_by_name, Main.get_object_by_name, hre, h]

/-- Witness for C1 at concrete inputs: one match, zero matches and two matches. -/
theorem get_object_by_name_trichotomy_witness :
    (Find.get_object_by_name litBuild [cardAlpha, cardBeta] "alp" true = .ok cardAlpha ∧
     Main.get_object_by_name litBuild [cardAlpha, cardBeta] "alp" true = .ok cardAlpha) ∧
    (Find.get_object_by_name litBuild [cardAlpha, cardBeta] "zzz" true =
       .error (.NotFound (notFoundMessage "Card" "zzz")) ∧
     Main.get_object_by_name litBuild [cardAlpha, cardBeta] "zzz" true =
       .error (.simple (mainNotFoundMessage "zzz"))) ∧
    (Find.get_object_by_name litBuild [cardAlpha, cardAlps, cardBeta] "alp" true =
       .error (.Multiple (multipleMessage "Card" "alp" ["Alpha", "Alps"])) ∧
     ∃ m, Main.get_object_by_name litBuild [cardAlpha, cardAlps, cardBeta] "alp" true =
       .error (.simple m)) :=
  ⟨(get_object_by_name_trichotomy litBuild [cardAlpha, cardBeta] "alp" true
      (litMatch "alp" true) rfl).1 cardAlpha rfl,
   (get_object_by_name_trichotomy litBuild [cardAlpha, cardBeta] "zzz" true
      (litMatch "zzz" true) rfl).2.1 rfl,
   (get_object_by_name_trichotomy litBuild [cardAlpha, cardAlps, cardBeta] "alp" true
      (litMatch "alp" true) rfl).2.2 cardAlpha cardAlps [] rfl⟩

/-- C2 (amended): for identical inputs whose list pattern is not the wildcard string, the two resolution strategies (find.rs and main.rs get_trello_object) succeed or fail together, and on success produce resolved contexts of identical shape (presence and identity at each level). -/
theorem get_trello_object_refines (client : ClientData) (build : RegexBuild)
    (p : TrelloParams) (m : ArgMatches)
    (hb : m.board_name = p.board_name) (hl : m.list_name = p.list_name)
    (hc : m.card_name = p.card_name) (hi : m.ignore_case = p.ignore_case)
    (hw : p.list_name ≠ some "-") :
    isOkE (Find.get_trello_object client build p) =
      isOkE (Main.get_trello_object client build m) ∧
    (∀ r1 r2, Find.get_trello_object client build p = .ok r1 →
      Main.get_trello_object client build m = .ok r2 → shape r1 = shape r2) := by
  cases hpb : p.board_name with
  | none =>
    constructor
    · simp [Find.get_trello_object, Main.get_trello_object, hb, hl, hc, hi, hpb, isOkE]
    · intro r1 r2 h1 h2
      simp [Find.get_trello_object, Main.get_trello_object, hb, hl, hc, hi, hpb] at h1 h2
      rw [← h1, ← h2]
  | some bn =>
    cases hfb : Find.get_object_by_name build (Board.get_all client) bn p.ignore_case with
    | error e =>
      obtain ⟨e2, he2⟩ := (gobn_agree build (Board.get_all client) bn p.ignore_case).2 e hfb
      constructor
      · simp [Find.get_trello_object, Main.get_trello_object, hb, hl, hc, hi, hpb,
          hfb, he2, isOkE]
      · intro r1 r2 h1 h2
        simp [Find.get_trello_object, hpb, hfb] at h1
    | ok b =>
      have hmb := (gobn_agree build (Board.get_all client) bn p.ignore_case).1 b hfb
      cases hpl : p.list_name with
      | none =>
        constructor
        · simp [Find.get_trello_object, Main.get_trello_object, hb, hl, hc, hi, hpb,
            hfb, hmb, hpl, isOkE]
        · intro r1 r2 h1 h2
          simp [Find.get_trello_object, Main.get_trello_object, hb, hl, hc, hi, hpb,
            hfb, hmb, hpl] at h1 h2
          rw [← h1, ← h2]
          simp [shape, Board.retrieve_nested]
      | some ln =>
        have hln : ln ≠ "-" := fun h => hw (by rw [hpl, h])
        cases hfl : Find.get_object_by_name build
            ((client.listsOf b.id).map fun l => { l with cards := some (client.cardsOf l.id) })
            ln p.ignore_case with
        | error e =>
          obtain ⟨e2, he2⟩ := (gobn_agree build _ ln p.ignore_case).2 e hfl
          constructor
          · simp [Find.get_trello_object, Main.get_trello_object, hb, hl, hc, hi, hpb,
              hfb, hmb, hpl, hln, Board.retrieve_nested, Board.get_all_lists, hfl, he2, isOkE]
          · intro r1 r2 h1 h2
            simp [Find.get_trello_object, hpb, hfb, hpl, hln, Board.retrieve_nested, hfl] at h1
        | ok l =>
          have hml := (gobn_agree build _ ln p.ignore_case).1 l hfl
          have hmem := gobn_ok_mem build _ ln p.ignore_case l hfl
          have hcl : l.cards = some (client.cardsOf l.id) := by
            rcases List.mem_map.mp hmem with ⟨l0, _, rfl⟩
            rfl
          cases hpc : p.card_name with
          | none =>
            constructor
            · simp [Find.get_trello_object, Main.get_trello_object, hb, hl, hc, hi, hpb,
                hfb, hmb, hpl, hln, Board.retrieve_nested, Board.get_all_lists, hfl, hml,
                hpc, isOkE]
            · intro r1 r2 h1 h2
              simp [Find.get_trello_object, Main.get_trello_object, hb, hl, hc, hi, hpb,
                hfb, hmb, hpl, hln, Board.retrieve_nested, Board.get_all_lists, hfl, hml,
                hpc] at h1 h2
              rw [← h1, ← h2]
              simp [shape, Board.retrieve_nested]
          | some cn =>
            cases hfc : Find.get_object_by_name build (client.cardsOf l.id) cn
                p.ignore_case with
            | error e =>
              obtain ⟨e2, he2⟩ := (gobn_agree build _ cn p.ignore_case).2 e hfc
              constructor
              · simp [Find.get_trello_object, Main.get_trello_object, hb, hl, hc, hi, hpb,
                  hfb, hmb, hpl, hln, Board.retrieve_nested, Board.get_all_lists, hfl, hml,
                  hpc, hcl, TrelloList.get_all_cards, hfc, he2, isOkE]
              · intro r1 r2 h1 h2
                simp [Find.get_trello_object, hpb, hfb, hpl, hln, Board.retrieve_nested,
                  hfl, hpc, hcl, hfc] at h1
            | ok c =>
              have hmc := (gobn_agree build _ cn p.ignore_case).1 c hfc
              constructor
              · simp [Find.get_trello_object, Main.get_trello_object, hb, hl, hc, hi, hpb,
                  hfb, hmb, hpl, hln, Board.retrieve_nested, Board.get_all_lists, hfl, hml,
                  hpc, hcl, TrelloList.get_all_cards, hfc, hmc, isOkE]
              · intro r1 r2 h1 h2
                simp [Find.get_trello_object, Main.get_trello_object, hb, hl, hc, hi, hpb,
                  hfb, hmb, hpl, hln, Board.retrieve_nested, Board.get_all_lists, hfl, hml,
                  hpc, hcl, TrelloList.get_all_cards, hfc, hmc] at h1 h2
                rw [← h1, ← h2]
                simp [shape, Board.retrieve_nested]

/-- Witness for C2 at a concrete client and a full board/list/card query. -/
theorem get_trello_object_refines_witness :
    (isOkE (Find.get_trello_object clientWork litBuild
        ⟨some "Work", some "Todo", some "groc", true⟩) =
      isOkE (Main.get_trello_object clientWork litBuild
        ⟨some "Work", some "Todo", some "groc", false, true⟩)) ∧
    (∀ r1 r2,
      Find.get_trello_object clientWork litBuild
        ⟨some "Work", some "Todo", some "groc", true⟩ = .ok r1 →
      Main.get_trello_object clientWork litBuild
        ⟨some "Work", some "Todo", some "groc", false, true⟩ = .ok r2 →
      shape r1 = shape r2) :=
  get_trello_object_refines clientWork litBuild
    ⟨some "Work", some "Todo", some "groc", true⟩
    ⟨some "Work", some "Todo", some "groc", false, true⟩
    rfl rfl rfl rfl (by simp)

/-- Counterexample to C2 as stated: on the same input with list pattern given as the wildcard string, find.rs get_trello_object succeeds (wildcard search across lists) while main.rs get_trello_object fails (it treats the wildcard as an ordinary regex over list names). -/
theorem get_trello_object_wildcard_divergence :
    isOkE (Find.get_trello_object clientWork litBuild
      ⟨some "Work", some "-", some "laun", true⟩) = true ∧
    isOkE (Main.get_trello_object clientWork litBuild
      ⟨some "Work", some "-", some "laun", false, true⟩) = false :=
  ⟨rfl, rfl⟩

/-- C3 (amended): when two or more names match, the find.rs matcher fails with a Multiple error whose message enumerates exactly the matched names, in input order. -/
theorem find_multiple_enumerates_matches {T : Type} [TrelloObject T]
    (build : RegexBuild) (objects : List T) (pattern : String)
    (ignore_case : Bool) (re : String → Bool) (o1 o2 : T) (rest : List T)
    (hre : build pattern ignore_case = .ok re)
    (h : objects.filter (fun x => re (TrelloObject.get_name x)) = o1 :: o2 :: rest) :
    Find.get_object_by_name build objects pattern ignore_case =
      .error (.Multiple (multipleMessage (@TrelloObject.get_type T _) pattern
        ((o1 :: o2 :: rest).map TrelloObject.get_name))) := by
  simp [Find.get_object_by_name, hre, h]

/-- Witness for C3 at a concrete two-match input. -/
theorem find_multiple_enumerates_matches_witness :
    Find.get_object_by_name litBuild [cardAlpha, cardAlps, cardBeta] "alp" true =
      .error (.Multiple (multipleMessage "Card" "alp" ["Alpha", "Alps"])) :=
  find_multiple_enumerates_matches litBuild [cardAlpha, cardAlps, cardBeta] "alp" true
    (litMatch "alp" true) cardAlpha cardAlps [] rfl rfl

/-- Counterexample to C3 as stated: the main.rs matcher's ambiguous-match message does not contain the matched names Alpha and Alps. -/
theorem main_multiple_message_omits_names :
    Main.get_object_by_name litBuild [cardAlpha, cardAlps] "alp" true =
      .error (.simple (mainMultipleMessage "alp")) ∧
    hasSubstrL "Alpha".data (mainMultipleMessage "alp").data = false ∧
    hasSubstrL "Alps".data (mainMultipleMessage "alp").data = false :=
  ⟨rfl, rfl, rfl⟩

/-- C5 (amended): matching is case-insensitive exactly when the flag is set (pattern foo matches name Foo only with ignore_case true); find.rs get_trello_params derives ignore_case true unless the case-sensitive flag is present, while main.rs get_trello_object reads the ignore-case flag directly and is case-sensitive when it is absent. -/
theorem case_sensitivity_semantics :
    Find.get_object_by_name litBuild [cardFoo] "foo" true = .ok cardFoo ∧
    Find.get_object_by_name litBuild [cardFoo] "foo" false =
      .error (.NotFound (notFoundMessage "Card" "foo")) ∧
    (∀ m : ArgMatches, (Find.get_trello_params m).ignore_case = !m.case_sensitive) ∧
    (∀ m : ArgMatches, m.board_name = some "foo" → m.list_name = none →
      m.ignore_case = false →
      Main.get_trello_object clientFoo litBuild m =
        .error (.simple (mainNotFoundMessage "foo"))) := by
  refine ⟨rfl, rfl, fun m => rfl, fun m h1 h2 h3 => ?_⟩
  simp [Main.get_trello_object, h1, h2, h3]
  rfl

/-- Counterexample to C5 as stated: with no flag given on the command line, main.rs get_trello_object fails to find the board Foo for the pattern foo (case-sensitive default), while the find.rs path with get_trello_params finds it. -/
theorem main_default_case_sensitive :
    Main.get_trello_object clientFoo litBuild ⟨some "foo", none, none, false, false⟩ =
      .error (.simple (mainNotFoundMessage "foo")) ∧
    Find.get_trello_object clientFoo litBuild
      (Find.get_trello_params ⟨some "foo", none, none, false, false⟩) =
      .ok ⟨some (Board.retrieve_nested clientFoo boardFoo), none, none⟩ :=
  ⟨rfl, rfl⟩

/-- C4 (amended): on a pattern that does not compile, the find.rs matcher returns the classified Regex error to its caller, while the main.rs matcher aborts the process (expect, modelled as a panicked value) instead of returning an error value. -/
theorem invalid_pattern_find_error_main_panic {T : Type} [TrelloObject T]
    (build : RegexBuild) (objects : List T) (pattern : String)
    (ignore_case : Bool) (err : String)
    (h : build pattern ignore_case = .error err) :
    Find.get_object_by_name build objects pattern ignore_case = .error (.Regex err) ∧
    Main.get_object_by_name build objects pattern ignore_case =
      .error (.panicked "Invalid Regex") := by
  constructor <;> simp [Find.get_object_by_name, Main.get_object_by_name, h]

/-- Witness for C4 at the non-compiling pattern of a lone opening parenthesis. -/
theorem invalid_pattern_find_error_main_panic_witness :
    Find.get_object_by_name litBuild [cardAlpha] "(" true =
      .error (.Regex "regex parse error: unclosed group") ∧
    Main.get_object_by_name litBuild [cardAlpha] "(" true =
      .error (.panicked "Invalid Regex") :=
  invalid_pattern_find_error_main_panic litBuild [cardAlpha] "(" true
    "regex parse error: unclosed group" rfl

/-- Counterexample to C4 as stated: on a non-compiling pattern the main.rs matcher panics, and a panic is not a simple (classified) error value. -/
theorem main_invalid_pattern_panics :
    Main.get_object_by_name litBuild [cardAlpha] "(" true =
      .error (.panicked "Invalid Regex") ∧
    ∀ e : MainError, e = .panicked "Invalid Regex" → ∀ s, e ≠ .simple s :=
  ⟨rfl, fun e he s => by simp [he]⟩

/-- C6 (amended): when the board pattern is present and resolves, the list pattern is exactly the wildcard string and the card pattern is absent, find.rs get_trello_object fails with the distinct WildCard error and returns no resolved context. -/
theorem wildcard_requires_card_error (client : ClientData) (build : RegexBuild)
    (p : TrelloParams) (bn : String) (b : Board)
    (h1 : p.board_name = some bn)
    (h2 : Find.get_object_by_name build (Board.get_all client) bn p.ignore_case = .ok b)
    (h3 : p.list_name = some "-") (h4 : p.card_name = none) :
    Find.get_trello_object client build p = .error (.find (.WildCard wildcardMessage)) := by
  simp [Find.get_trello_object, h1, h2, h3, h4]

/-- Witness for C6 at a concrete client. -/
theorem wildcard_requires_card_error_witness :
    Find.get_trello_object clientFoo litBuild ⟨some "foo", some "-", none, true⟩ =
      .error (.find (.WildCard wildcardMessage)) :=
  wildcard_requires_card_error clientFoo litBuild ⟨some "foo", some "-", none, true⟩
    "foo" boardFoo rfl rfl rfl rfl

/-- Counterexample to C6 as stated: with the board pattern absent, a resolution whose list pattern is the wildcard string and whose card pattern is absent does not fail: it returns an all-absent resolved context, which is not an error. -/
theorem wildcard_without_board_returns_ok :
    Find.get_trello_object clientFoo litBuild ⟨none, some "-", none, true⟩ =
      .ok ⟨none, none, none⟩ ∧
    ∀ e : TroError, Except.ok (ε := TroError) (⟨none, none, none⟩ : TrelloResult) ≠ .error e :=
  ⟨rfl, fun e => by simp⟩

/-- C7: when the list pattern is exactly the wildcard string and the card pattern matches exactly one card among the cards of all the board's lists flattened into one candidate set, the resolver returns a context with the board populated, the list absent and that card. -/
theorem wildcard_flattened_unique_card (client : ClientData) (build : RegexBuild)
    (p : TrelloParams) (bn cn : String) (b : Board) (re : String → Bool) (c : Card)
    (h1 : p.board_name = some bn)
    (h2 : Find.get_object_by_name build (Board.get_all client) bn p.ignore_case = .ok b)
    (h3 : p.list_name = some "-") (h4 : p.card_name = some cn)
    (h5 : build cn p.ignore_case = .ok re)
    (h6 : (flatCards client b).filter (fun x => re (TrelloObject.get_name x)) = [c]) :
    Find.get_trello_object client build p =
      .ok ⟨some (Board.retrieve_nested client b), none, some c⟩ := by
  unfold flatCards at h6
  simp only [Find.get_trello_object, h1, h2, h3, h4]
  simp only [Board.retrieve_nested, unwrapCards_map, reduceIte]
  simp only [Find.get_object_by_name, h5, h6]

/-- Witness for C7: the pattern laun matches exactly one card across the two lists of the Work board. -/
theorem wildcard_flattened_unique_card_witness :
    Find.get_trello_object clientWork litBuild ⟨some "Work", some "-", some "laun", true⟩ =
      .ok ⟨some (Board.retrieve_nested clientWork boardWork), none, some cardLaundry⟩ :=
  wildcard_flattened_unique_card clientWork litBuild
    ⟨some "Work", some "-", some "laun", true⟩ "Work" "laun" boardWork
    (litMatch "laun" true) cardLaundry rfl rfl rfl rfl rfl rfl

/-- C8: for every card whose name is a single trimmed line, render emits the name line, a blank-line separator, then the description verbatim, and parse inverts this, recovering exactly the name and description. -/
theorem parse_render_roundtrip (card : Card)
    (h1 : '\n' ∉ card.name.data) (h2 : trimL card.name.data = card.name.data) :
    Card.render card = card.name ++ "\n\n" ++ card.desc ∧
    Card.parse (Card.render card) = .ok ⟨"", card.name, card.desc, false, []⟩ := by
  refine ⟨rfl, ?_⟩
  have hdata : (Card.render card).data = card.name.data ++ '\n' :: '\n' :: card.desc.data := by
    simp [Card.render, String.data_append]
  unfold Card.parse
  rw [hdata]
  rw [if_neg (by simp)]
  rw [splitLines_append _ _ h1]
  rw [show splitLines ('\n' :: card.desc.data) = [] :: splitLines card.desc.data from by
    simp [splitLines]]
  simp [afterBlank, joinLines_splitLines, h2, strMk_data]

/-- Witness for C8: the card named Buy milk with description 2% please renders to the expected document and parses back to the same two fields. -/
theorem parse_render_roundtrip_witness :
    ('\n' ∉ buyMilk.name.data ∧ trimL buyMilk.name.data = buyMilk.name.data) ∧
    Card.render buyMilk = "Buy milk\n\n2% please" ∧
    Card.parse "Buy milk\n\n2% please" = .ok ⟨"", "Buy milk", "2% please", false, []⟩ :=
  ⟨⟨by decide, rfl⟩, rfl, (parse_render_roundtrip buyMilk (by decide) rfl).2⟩

/-- C9 (amended): when the external editor returns the rendered text unchanged and the card is well-formed for the codec (single-line trim-stable nonempty name, no trailing whitespace in a nonempty description, card not closed), the reconstructed card equals the original and no update call is made. -/
theorem edit_unchanged_no_update (card : Card) (editor : String → String)
    (hed : editor (Card.render card ++ "\n") = Card.render card ++ "\n")
    (h1 : '\n' ∉ card.name.data)
    (h2 : trimL card.name.data = card.name.data)
    (h3 : card.name ≠ "")
    (h4 : card.closed = false)
    (h5 : card.desc = "" ∨ trimEndL card.desc.data = card.desc.data ∧ card.desc ≠ "") :
    edit_card editor card = .ok card ∧ show_card_edit editor card = .ok none := by
  obtain ⟨cid, cnm, cds, ccl, clb⟩ := card
  have h4x : ccl = false := h4
  subst h4x
  have h1x : '\n' ∉ cnm.data := h1
  have h2x : trimL cnm.data = cnm.data := h2
  have h3x : cnm ≠ "" := h3
  have h5x : cds = "" ∨ trimEndL cds.data = cds.data ∧ cds ≠ "" := h5
  clear h1 h2 h3 h5
  have hnedata : cnm.data ≠ [] := fun hn => h3x (by rw [← strMk_data cnm, hn])
  have hec : edit_card editor ⟨cid, cnm, cds, false, clb⟩ = .ok ⟨cid, cnm, cds, false, clb⟩ := by
    unfold edit_card
    rw [hed]
    have hbuf : (Card.render ⟨cid, cnm, cds, false, clb⟩ ++ "\n").data
        = cnm.data ++ '\n' :: '\n' :: (cds.data ++ ['\n']) := by
      simp [Card.render, String.data_append]
    rw [hbuf]
    rcases h5x with hd | ⟨hdc, hdn⟩
    · have hdd : cds.data = [] := by rw [hd]
      have hshape : cnm.data ++ '\n' :: '\n' :: (cds.data ++ ['\n'])
          = cnm.data ++ ['\n', '\n', '\n'] := by rw [hdd]; rfl
      rw [hshape, trimEndL_append_ws _ _ (by decide), trimL_self_trimEnd _ h2x]
      rw [strMk_data, parse_single_line cnm.data h1x hnedata]
      rw [h2x, strMk_data]
      simp [hd]
    · have hdd : cds.data ≠ [] := fun hn => hdn (by rw [← strMk_data cds, hn])
      have hshape : cnm.data ++ '\n' :: '\n' :: (cds.data ++ ['\n'])
          = (cnm.data ++ '\n' :: '\n' :: cds.data) ++ ['\n'] := by simp
      rw [hshape, trimEndL_append_ws _ _ (by decide)]
      have hclean : trimEndL (cnm.data ++ '\n' :: '\n' :: cds.data)
          = cnm.data ++ '\n' :: '\n' :: cds.data := by
        have hshape2 : cnm.data ++ '\n' :: '\n' :: cds.data
            = (cnm.data ++ ['\n', '\n']) ++ cds.data := by simp
        rw [hshape2, trimEndL_clean_append _ _ hdc hdd]
      rw [hclean, parse_name_sep_desc cnm.data cds.data h1x]
      rw [h2x, strMk_data, strMk_data]
  refine ⟨hec, ?_⟩
  unfold show_card_edit
  rw [hec]
  simp

/-- Witness for C9 with the identity editor on a concrete card. -/
theorem edit_unchanged_no_update_witness :
    edit_card (fun s => s) buyMilk = .ok buyMilk ∧
    show_card_edit (fun s => s) buyMilk = .ok none :=
  edit_unchanged_no_update buyMilk (fun s => s) rfl (by decide) rfl (by decide) rfl
    (Or.inr ⟨rfl, by decide⟩)

/-- Counterexample to C9 as stated: for a card whose description ends in a newline, the identity editor session still reconstructs a different card (the trailing newline is trimmed), so an update call is made. -/
theorem edit_unchanged_desc_newline_updates :
    edit_card (fun s => s) trailCard = .ok ⟨"c20", "note", "body", false, []⟩ ∧
    (⟨"c20", "note", "body", false, []⟩ : Card) ≠ trailCard ∧
    show_card_edit (fun s => s) trailCard = .ok (some ⟨"c20", "note", "body", false, []⟩) :=
  ⟨rfl, by decide, rfl⟩

/-- C10: the close operation mutates exactly one entity chosen by depth precedence over the resolved context, and on the updated entity only the closed field changes, all other fields unchanged; an all-absent context mutates nothing. -/
theorem close_mutation_depth_precedence (r : TrelloResult) :
    (∀ c, r.card = some c →
      close_mutation r = some (.card ⟨c.id, c.name, c.desc, true, c.labels⟩)) ∧
    (r.card = none → ∀ l, r.list = some l →
      close_mutation r = some (.list ⟨l.id, l.name, true, l.cards⟩)) ∧
    (r.card = none → r.list = none → ∀ b, r.board = some b →
      close_mutation r = some (.board ⟨b.id, b.name, true, b.lists⟩)) ∧
    (r.card = none → r.list = none → r.board = none → close_mutation r = none) := by
  refine ⟨fun c hc => ?_, fun hc l hl => ?_, fun hc hl b hb => ?_, fun hc hl hb => ?_⟩ <;>
    simp [close_mutation, hc]
  · simp [hl]
  · simp [hl, hb]
  · simp [hl, hb]
